import Mathlib

/-!
Verification development for the civic-rewards backend
(`green-waste-ai` submission pipeline, leaderboard ranking, and daily
reward distribution).  The definitions below are a shallow embedding of
the TypeScript sources:

* `src/domains/green-waste-ai/green-waste-ai.service.ts`
* `src/domains/green-waste-ai/green-waste-ai.repository.ts`
* `src/domains/leaderboard/leaderboard.repository.ts`
* `src/domains/leaderboard/leaderboard.service.ts`

The Prisma store is modelled as an explicit state (`DB`): the `user`
table as a list of `User` rows in creation order and the `green_action`
table as a list of `GreenAction` rows.  JavaScript numbers that only
ever hold integral values (scores, points) are modelled as `Int`/`Nat`;
where the source multiplies by the float literal `0.6`, the table of
base points (multiples of 5, plus the default 30) makes the float
computation exact, so `Math.floor(b * 0.6)` is embedded as `b * 6 / 10`
(natural division).  External collaborators (Cloudinary upload, the
Gemini call, `JSON.parse`, Nodemailer) are parameters of the functions
that invoke them.
-/

namespace Sirkula

/-- Enum `GreenActionCategory` from `enums/green-action.enum.ts`. -/
inductive GreenActionCategory where
  | GREEN_WASTE
  | GREEN_HOME
  | GREEN_CONSUMPTION
  | GREEN_COMMUNITY
deriving DecidableEq, Repr

/-- Enum `GreenActionStatus` from `enums/green-action.enum.ts`. -/
inductive GreenActionStatus where
  | PENDING
  | VERIFIED
  | REJECTED
  | NEEDS_IMPROVEMENT
deriving DecidableEq, Repr

/-- One entry of the `POINTS_CRITERIA` rule table:
`\x7b basePoints, minScore \x7d`. -/
structure Criteria where
  basePoints : Nat
  minScore : Int
deriving DecidableEq, Repr

/-- The static rule table `POINTS_CRITERIA` of `GreenWasteAiService`,
as a lookup from category and sub-category string.  An unknown
sub-category yields `none` (the TS property access yields
`undefined`). -/
def POINTS_CRITERIA (category : GreenActionCategory) (subCategory : String) :
    Option Criteria :=
  match category with
  | .GREEN_WASTE =>
    if subCategory = "ORGANIC_WASTE" then some ⟨50, 60⟩
    else if subCategory = "INORGANIC_RECYCLE" then some ⟨50, 60⟩
    else if subCategory = "HAZARDOUS_WASTE" then some ⟨70, 75⟩
    else none
  | .GREEN_HOME =>
    if subCategory = "PLANT_TREE" then some ⟨60, 70⟩
    else if subCategory = "URBAN_FARMING" then some ⟨50, 65⟩
    else if subCategory = "GREEN_CORNER" then some ⟨40, 60⟩
    else none
  | .GREEN_CONSUMPTION =>
    if subCategory = "ORGANIC_PRODUCT" then some ⟨30, 60⟩
    else if subCategory = "REFILL_STATION" then some ⟨35, 60⟩
    else if subCategory = "REUSABLE_ITEMS" then some ⟨25, 55⟩
    else none
  | .GREEN_COMMUNITY =>
    if subCategory = "COMMUNITY_CLEANUP" then some ⟨80, 70⟩
    else if subCategory = "RIVER_CLEANUP" then some ⟨90, 70⟩
    else if subCategory = "CAR_FREE_DAY" then some ⟨60, 65⟩
    else if subCategory = "OTHER_COLLECTIVE" then some ⟨50, 60⟩
    else none

/-- Embedding of `GreenWasteAiService.calculatePointsAndStatus`.  The source falls
back to `\x7b basePoints: 30, minScore: 60 \x7d` when the sub-category is
not in the table (`|| \x7b ... \x7d`), then walks the threshold ladder.
`Math.floor(basePoints * 0.6)` is exact for every base-points value the
table (or the default) can produce, and equals `basePoints * 6 / 10`. -/
def calculatePointsAndStatus (aiScore : Int) (category : GreenActionCategory)
    (subCategory : String) : Nat × GreenActionStatus :=
  let subCategoryCriteria :=
    (POINTS_CRITERIA category subCategory).getD ⟨30, 60⟩
  if 80 ≤ aiScore then
    (subCategoryCriteria.basePoints, .VERIFIED)
  else if subCategoryCriteria.minScore ≤ aiScore then
    (subCategoryCriteria.basePoints * 6 / 10, .VERIFIED)
  else if 40 ≤ aiScore then
    (0, .NEEDS_IMPROVEMENT)
  else
    (0, .REJECTED)

/-- The decision ladder as the specification words it (section 4.2):
first match wins top-down, partial credit is `floor(basePoints × 0.6)`
as an exact rational floor, and an unrecognized sub-category uses the
conservative default entry basePoints 30, minScoreThreshold 60. -/
def decisionLadderSpec (score : Int) (category : GreenActionCategory)
    (subCategory : String) : Nat × GreenActionStatus :=
  let crit :=
    match POINTS_CRITERIA category subCategory with
    | some c => c
    | none => ⟨30, 60⟩
  if 80 ≤ score then (crit.basePoints, .VERIFIED)
  else if crit.minScore ≤ score then
    (Nat.floor ((crit.basePoints : ℚ) * 0.6), .VERIFIED)
  else if 40 ≤ score then (0, .NEEDS_IMPROVEMENT)
  else (0, .REJECTED)

/-- Shape `IAiAnalysisResult` as produced by the service (the interface in
`interfaces/green-action.interface.ts`). -/
structure IAiAnalysisResult where
  success : Bool
  score : Int
  labels : List String
  categoryMatch : Bool
  feedback : String
  points : Nat
  status : GreenActionStatus
  rawResponse : Option String := none
deriving DecidableEq, Repr

/-- Embedding of `GreenWasteAiService.getDefaultAiResult`: the conservative result
used on every oracle-failure path. -/
def getDefaultAiResult (feedback : String) : IAiAnalysisResult :=
  { success := false
    score := 0
    labels := []
    categoryMatch := false
    feedback := feedback
    points := 0
    status := .NEEDS_IMPROVEMENT
    rawResponse := none }

/-! ### Oracle response parsing (`parseAiResponse` / `verifyWithAi`)

`JSON.parse` is a JavaScript builtin, modelled as an abstract parameter
`jsonParse : String → Option ParsedJson` where `none` stands for a
thrown `SyntaxError` and `ParsedJson` records the four fields the service
reads from the parsed object (`score`, `labels`, `categoryMatch`,
`feedback`); an absent field is `none`. -/

/-- The fields of the parsed oracle JSON that `parseAiResponse` reads.
Scores are modelled as integers (the prompt requests a number 0-100). -/
structure ParsedJson where
  score : Option Int
  labels : Option (List String)
  categoryMatch : Option Bool
  feedback : Option String
deriving DecidableEq, Repr

/-- The backtick character (its literal is avoided in this file). -/
def backtick : Char := Char.ofNat 96

/-- JavaScript regex-class whitespace, restricted to the ASCII range
plus NBSP (the oracle responses are ASCII JSON). -/
def isJsWhitespace (c : Char) : Bool :=
  c == ' ' || (9 ≤ c.toNat && c.toNat ≤ 13) || c.toNat == 160

/-- Split a character list at its first occurrence of a triple-backtick
fence: `some (before, after)` where `before` holds the characters
preceding the fence and `after` those following it. -/
def splitAtFence : List Char → Option (List Char × List Char)
  | [] => none
  | c :: cs =>
    if c = backtick ∧ cs.take 2 = [backtick, backtick] then
      some ([], cs.drop 2)
    else
      match splitAtFence cs with
      | none => none
      | some (p, r) => some (c :: p, r)

/-- JavaScript `String.prototype.trim` over our whitespace class. -/
def jsTrim (l : List Char) : List Char :=
  ((l.dropWhile isJsWhitespace).reverse.dropWhile isJsWhitespace).reverse

/-- The regex capture of
`responseText.match(/triple-fence (?:json)? \s* (lazy group) triple-fence/)`:
after the first fence, an optional literal `json`, then greedy
whitespace, the capture runs to the next fence.  `none` when the text
has no fenced block (then `parseAiResponse` parses the whole text). -/
def extractFencedJson (s : String) : Option String :=
  match splitAtFence s.data with
  | none => none
  | some (_, rest) =>
    let rest1 := if rest.take 4 = "json".data then rest.drop 4 else rest
    let rest2 := rest1.dropWhile isJsWhitespace
    match splitAtFence rest2 with
    | none => none
    | some (body, _) => some (String.mk body)

/-- The string `parseAiResponse` hands to `JSON.parse`: the trimmed
capture of the code fence when one matches, the raw text otherwise. -/
def effectiveJsonStr (responseText : String) : String :=
  match extractFencedJson responseText with
  | some inner => String.mk (jsTrim inner.data)
  | none => responseText

/-- JavaScript `x || 0` for the parsed numeric `score` field: `0` when
the field is absent (and `0 || 0 = 0`, so `Option.getD` is exact). -/
def jsNumOrZero : Option Int → Int
  | none => 0
  | some s => s

/-- JavaScript `x || d` for a string field: the default when the field
is absent or the empty string (the empty string is falsy). -/
def jsStrOr : Option String → String → String
  | none, d => d
  | some s, d => if s = "" then d else s

/-- Embedding of `GreenWasteAiService.parseAiResponse`: extract fenced JSON if
present, parse, clamp the score with `Math.min(100, Math.max(0, ...))`,
default the remaining fields; any parse failure is caught and mapped
to `getDefaultAiResult`. -/
def parseAiResponse (jsonParse : String → Option ParsedJson)
    (responseText : String) : IAiAnalysisResult :=
  match jsonParse (effectiveJsonStr responseText) with
  | some parsed =>
    { success := true
      score := min 100 (max 0 (jsNumOrZero parsed.score))
      labels := parsed.labels.getD []
      categoryMatch := parsed.categoryMatch.getD false
      feedback := jsStrOr parsed.feedback "Verification completed."
      points := 0
      status := .PENDING
      rawResponse := some responseText }
  | none =>
    getDefaultAiResult "Could not parse verification result. Please try again."

/-- Outcome of the Gemini call inside `verifyWithAi`: the adapter
returned `success: false`, the call (or upload conversion) threw, or it
returned a text response. -/
inductive OracleOutcome where
  | errorResult (error : String)
  | thrown
  | ok (text : String)
deriving DecidableEq, Repr

/-- Embedding of `GreenWasteAiService.verifyWithAi` after the upload: a failed or
throwing oracle call yields `getDefaultAiResult` (with the respective
message), a text response goes through `parseAiResponse`. -/
def verifyWithAi (jsonParse : String → Option ParsedJson)
    (oracle : OracleOutcome) : IAiAnalysisResult :=
  match oracle with
  | .errorResult _ => getDefaultAiResult "AI verification failed. Please try again."
  | .thrown => getDefaultAiResult "An error occurred during verification. Please try again."
  | .ok text => parseAiResponse jsonParse text

/-! ### The persistent state (`DB`) and the repository operations -/

/-- A row of the Prisma `user` table (the columns this engine reads). -/
structure User where
  id : String
  email : String := ""
  name : String := ""
  avatar_url : String := ""
  role : String
  is_active : Bool
  total_points : Int
deriving DecidableEq, Repr

instance : Inhabited User :=
  ⟨{ id := "", role := "", is_active := false, total_points := 0 }⟩

/-- A row of the Prisma `green_action` table (labels are kept as a
list; the source serializes them with `JSON.stringify`). -/
structure GreenAction where
  id : String
  user_id : String
  category : GreenActionCategory
  description : String := ""
  media_url : String := ""
  status : GreenActionStatus
  ai_score : Int := 0
  ai_feedback : String := ""
  ai_labels : List String := []
  points : Nat
deriving DecidableEq, Repr

/-- The durable store: both tables, rows in creation order. -/
structure DB where
  users : List User
  actions : List GreenAction
deriving DecidableEq, Repr

/-- Typed domain failures surfaced to the HTTP layer
(`NotFoundException`, `ForbiddenException`, and the
`BadRequestException('This action is already verified')` invalid-state
error). -/
inductive DomainError where
  | NotFound
  | Forbidden
  | InvalidState
deriving DecidableEq, Repr

/-- Aggregate total of the user with the given id (`0` if absent). -/
def getTotal (db : DB) (userId : String) : Int :=
  ((db.users.find? (fun u => u.id == userId)).map User.total_points).getD 0

/-- Sum of every user's aggregate total. -/
def sumTotals (db : DB) : Int :=
  (db.users.map User.total_points).sum

/-- The effect of Prisma `user.update(\x7b where: \x7b id \x7d, data:
\x7b total_points: \x7b increment \x7d \x7d \x7d)` on one row: the (unique)
matching row is incremented, all others are untouched. -/
def incrementRow (userId : String) (points : Int) (u : User) : User :=
  if u.id = userId then { u with total_points := u.total_points + points }
  else u

/-- Embedding of `GreenWasteAiRepository.updateUserPoints`: an unconditional
row-level increment of the user row keyed by `userId`. -/
def updateUserPoints (userId : String) (points : Int) (db : DB) : DB :=
  { db with users := db.users.map (incrementRow userId points) }

/-- Embedding of `GreenWasteAiRepository.findById`. -/
def findById (id : String) (db : DB) : Option GreenAction :=
  db.actions.find? (fun a => a.id == id)

/-- Embedding of `GreenWasteAiRepository.findByIdAndUserId`. -/
def findByIdAndUserId (id userId : String) (db : DB) : Option GreenAction :=
  db.actions.find? (fun a => a.id == id && a.user_id == userId)

/-! ### Green-waste service operations -/

/-- Embedding of `GreenWasteAiService.submitAction` after the media upload (the
Cloudinary result is the `mediaUrl` parameter, the oracle call is the
`oracle` parameter, `newId` is the id Prisma assigns to the created
row).  The AI outcome is re-scored by `calculatePointsAndStatus` on
`aiResult.score`, the action row is created at its terminal status, and
the user's total is incremented only when that status is `VERIFIED`. -/
def submitAction (newId userId : String) (category : GreenActionCategory)
    (subCategory : String) (description : String) (mediaUrl : String)
    (jsonParse : String → Option ParsedJson) (oracle : OracleOutcome)
    (db : DB) : GreenAction × DB :=
  let aiResult := verifyWithAi jsonParse oracle
  let ps := calculatePointsAndStatus aiResult.score category subCategory
  let greenAction : GreenAction :=
    { id := newId
      user_id := userId
      category := category
      description := description
      media_url := mediaUrl
      status := ps.2
      ai_score := aiResult.score
      ai_feedback := aiResult.feedback
      ai_labels := aiResult.labels
      points := ps.1 }
  let db1 : DB := { db with actions := db.actions ++ [greenAction] }
  let db2 : DB :=
    if ps.2 = GreenActionStatus.VERIFIED then updateUserPoints userId ps.1 db1
    else db1
  (greenAction, db2)

/-- Embedding of `GreenWasteAiService.deleteAction`: look the action up, check
ownership unless the requester is an admin, deduct the points from the
row keyed by `userId` — the *requester's* id — when the action is
`VERIFIED` with positive points, then delete the row. -/
def deleteAction (id userId : String) (isAdmin : Bool) (db : DB) :
    Except DomainError DB :=
  match findById id db with
  | none => .error .NotFound
  | some action =>
    if ¬ isAdmin ∧ action.user_id ≠ userId then .error .Forbidden
    else
      let db1 :=
        if action.status = GreenActionStatus.VERIFIED ∧ 0 < action.points then
          updateUserPoints userId (-(action.points : Int)) db
        else db
      .ok { db1 with actions := db1.actions.eraseP (fun a => a.id == id) }

/-- Embedding of `GreenWasteAiService.retryVerification`: `NotFound` when the
requester owns no action with that id, invalid-state when the action is
already `VERIFIED`, otherwise the action is returned unchanged and no
state is written (the response mapping renames fields only, so the raw
row stands for it).  The state component of the result is the store
after the call. -/
def retryVerification (id userId : String) (db : DB) :
    Except DomainError GreenAction × DB :=
  match findByIdAndUserId id userId db with
  | none => (.error .NotFound, db)
  | some action =>
    if action.status = GreenActionStatus.VERIFIED then (.error .InvalidState, db)
    else (.ok action, db)

/-! ### Leaderboard ranking and reward distribution -/

/-- The `where` filter shared by `getLeaderboard`, `getTopUsers` and
`getUserRank`: `role: 'WARGA', is_active: true, total_points: gt 0`. -/
def eligibleB (u : User) : Bool :=
  u.role == "WARGA" && u.is_active && decide (0 < u.total_points)

/-- The ordering `orderBy: \x7b total_points: 'desc' \x7d`:
`pointsGE a b` holds when `a` ranks no lower than `b`. -/
def pointsGE (a b : User) : Prop :=
  b.total_points ≤ a.total_points

instance : DecidableRel pointsGE := fun a b =>
  inferInstanceAs (Decidable (b.total_points ≤ a.total_points))

instance : IsTotal User pointsGE :=
  ⟨fun a b => le_total b.total_points a.total_points⟩

instance : IsTrans User pointsGE :=
  ⟨fun _ _ _ hab hbc => le_trans hbc hab⟩

/-- The contract the source query actually imposes on a `findMany`
result: the `where` filter makes it a permutation of the eligible
users, and `orderBy: \x7b total_points: 'desc' \x7d` makes it
non-increasing in `total_points`.  Nothing more is specified — in
particular no secondary sort key exists, so the order among users with
equal totals is up to the store, and two separate queries may receive
different admissible orders. -/
def isFindManyResult (db : DB) (l : List User) : Prop :=
  l.Perm (db.users.filter eligibleB) ∧ List.Sorted pointsGE l

/-- One admissible `findMany` result, fixed so that the model stays
executable: the eligible users sorted by `total_points` descending
with ties in creation order.  The source query specifies no tie order
(`isFindManyResult` is everything it guarantees); the theorems below
either do not depend on the tie order or use this list only as one
admissible `isFindManyResult` fetch. -/
def rankUsers (db : DB) : List User :=
  (db.users.filter eligibleB).insertionSort pointsGE

/-- Number of `green_action` rows of a user (the `_count` select). -/
def countActions (db : DB) (userId : String) : Nat :=
  (db.actions.filter (fun a => a.user_id == userId)).length

/-- The shape `LeaderboardRepository.getTopUsers` maps each row to. -/
structure TopUserView where
  id : String
  email : String
  name : String
  avatarUrl : String
  totalPoints : Int
  totalActions : Nat
deriving DecidableEq, Repr

/-- Embedding of `LeaderboardRepository.getTopUsers`: the first `topN` rows of the
ranked list, mapped to their view. -/
def getTopUsers (topN : Nat) (db : DB) : List TopUserView :=
  ((rankUsers db).take topN).map fun u =>
    { id := u.id
      email := u.email
      name := u.name
      avatarUrl := u.avatar_url
      totalPoints := u.total_points
      totalActions := countActions db u.id }

/-- One entry of the paginated leaderboard response. -/
structure LeaderboardEntry where
  rank : Nat
  userId : String
  name : String
  avatarUrl : String
  role : String
  totalPoints : Int
  totalActions : Nat
deriving DecidableEq, Repr

/-- Embedding of `LeaderboardRepository.getLeaderboard`: fetch the whole ranked
list, slice `[skip, skip+limit)` with `skip = (page-1)*limit`, attach
`rank = skip + index + 1`; the second component is the total count the
pagination metadata reports. -/
def getLeaderboard (page limit : Nat) (db : DB) :
    List LeaderboardEntry × Nat :=
  let skip := (page - 1) * limit
  let usersWithPoints := rankUsers db
  let total := usersWithPoints.length
  let paginated := (usersWithPoints.drop skip).take limit
  (paginated.enum.map fun p =>
    { rank := skip + p.1 + 1
      userId := p.2.id
      name := p.2.name
      avatarUrl := p.2.avatar_url
      role := p.2.role
      totalPoints := p.2.total_points
      totalActions := countActions db p.2.id }, total)

/-- Result shape of `LeaderboardRepository.getUserRank`. -/
structure UserRankInfo where
  rank : Nat
  totalPoints : Int
  totalActions : Nat
  percentile : Int
deriving DecidableEq, Repr

/-- Embedding of `LeaderboardRepository.getUserRank`: position of the user in the
ranked list; `findIndex` misses (`-1`) map to the all-zero record.
`Math.round(((total - rank) / total) * 100)` is embedded as the
rational rounding (exact where the float is). -/
def getUserRank (userId : String) (db : DB) : UserRankInfo :=
  let usersWithPoints := rankUsers db
  match usersWithPoints.findIdx? (fun u => u.id == userId) with
  | none => { rank := 0, totalPoints := 0, totalActions := 0, percentile := 0 }
  | some userIndex =>
    let total := usersWithPoints.length
    let rank := userIndex + 1
    let u := usersWithPoints.getD userIndex default
    { rank := rank
      totalPoints := u.total_points
      totalActions := countActions db u.id
      percentile :=
        if 0 < total then round ((((total : ℚ) - rank) / total) * 100) else 0 }

/-- Embedding of `LeaderboardRepository.addBonusPoints`: the same Prisma row-level
`total_points: \x7b increment: bonusPoints \x7d` as
`GreenWasteAiRepository.updateUserPoints`, with a non-negative bonus. -/
def addBonusPoints (userId : String) (bonusPoints : Nat) (db : DB) : DB :=
  updateUserPoints userId bonusPoints db

/-- Constant `DAILY_BONUS_POINTS` from `scheduler.constant.ts`: rank 1 → 15,
rank 2 → 10, rank 3 → 5. -/
def DAILY_BONUS_POINTS (rank : Nat) : Nat :=
  if rank = 1 then 15 else if rank = 2 then 10 else if rank = 3 then 5 else 0

/-- Constant `TOP_USERS_COUNT` from `scheduler.constant.ts`. -/
def TOP_USERS_COUNT : Nat := 3

/-- One winner entry of a distribution result
(`IDailyRewardWinner`). -/
structure IDailyRewardWinner where
  userId : String
  email : String
  name : String
  rank : Nat
  totalPoints : Int
  bonusPoints : Nat
  newTotalPoints : Int
deriving DecidableEq, Repr

/-- The distribution result (`IDailyRewardResult`); the wall-clock
`timestamp` field is abstracted into the `date` parameter. -/
structure IDailyRewardResult where
  date : String
  winners : List IDailyRewardWinner
  totalBonusDistributed : Nat
deriving DecidableEq, Repr

/-- The crediting loop of `LeaderboardService.distributeDailyReward`:
for the `i`-th top user credit `DAILY_BONUS_POINTS (i+1)`, read the
updated total back, accumulate the winner entry and the running bonus
total.  The per-winner email is fire-and-observe and touches no engine
state, so it does not appear here. -/
def creditWinners : Nat → List TopUserView → DB →
    List IDailyRewardWinner × Nat × DB
  | _, [], db => ([], 0, db)
  | i, user :: rest, db =>
    let bonusPoints := DAILY_BONUS_POINTS (i + 1)
    let db1 := addBonusPoints user.id bonusPoints db
    let winner : IDailyRewardWinner :=
      { userId := user.id
        email := user.email
        name := user.name
        rank := i + 1
        totalPoints := user.totalPoints
        bonusPoints := bonusPoints
        newTotalPoints := getTotal db1 user.id }
    let rec_ := creditWinners (i + 1) rest db1
    (winner :: rec_.1, bonusPoints + rec_.2.1, rec_.2.2)

/-- Embedding of `LeaderboardService.distributeDailyReward` (webhook-triggered): no
period-record lookup precedes the crediting; the top list is fetched
and, unless empty (`null` result), every invocation credits the rank
bonuses and assembles a fresh result for `today`. -/
def distributeDailyReward (today : String) (db : DB) :
    Option IDailyRewardResult × DB :=
  let topUsers := getTopUsers TOP_USERS_COUNT db
  if topUsers.isEmpty then (none, db)
  else
    let credited := creditWinners 0 topUsers db
    (some { date := today
            winners := credited.1
            totalBonusDistributed := credited.2.1 }, credited.2.2)

/-! ### Concrete stores and stubs used by witnesses and counterexamples -/

/-- Concrete store for the C4 witness: one participant with zero
points. -/
def dbC4 : DB :=
  { users := [{ id := "u1", role := "WARGA", is_active := true,
                total_points := 0 }],
    actions := [] }

/-- Oracle stub for the C4 witness: parses the text `ok` to score 85. -/
def jpC4 : String → Option ParsedJson := fun s =>
  if s = "ok" then some { score := some 85, labels := none,
                          categoryMatch := none, feedback := none }
  else none

instance {ε α : Type} [DecidableEq ε] [DecidableEq α] :
    DecidableEq (Except ε α) := fun a b =>
  match a, b with
  | .error e1, .error e2 =>
    if h : e1 = e2 then .isTrue (congrArg Except.error h)
    else .isFalse (by intro hc; injection hc; exact h (by assumption))
  | .ok v1, .ok v2 =>
    if h : v1 = v2 then .isTrue (congrArg Except.ok h)
    else .isFalse (by intro hc; injection hc; exact h (by assumption))
  | .error _, .ok _ => .isFalse (by intro hc; exact Except.noConfusion hc)
  | .ok _, .error _ => .isFalse (by intro hc; exact Except.noConfusion hc)

/-- Concrete store exposing the C5 slip: an admin (50 points says the
claim should leave them alone) deletes another user's VERIFIED
50-point action. -/
def dbC5 : DB :=
  { users := [{ id := "admin1", role := "ADMIN", is_active := true,
                total_points := 0 },
              { id := "u1", role := "WARGA", is_active := true,
                total_points := 50 }],
    actions := [{ id := "a1", user_id := "u1", category := .GREEN_WASTE,
                  status := .VERIFIED, ai_score := 85, points := 50 }] }

/-- Concrete store for the C6 counterexample: the requesting admin has
only 10 points when a 30-point deduction lands on them. -/
def dbC6 : DB :=
  { users := [{ id := "admin9", role := "ADMIN", is_active := true,
                total_points := 10 },
              { id := "u2", role := "WARGA", is_active := true,
                total_points := 30 }],
    actions := [{ id := "a2", user_id := "u2", category := .GREEN_HOME,
                  status := .VERIFIED, ai_score := 90, points := 30 }] }

/-- The VERIFIED action used by the C9 witness. -/
def act9 : GreenAction :=
  { id := "a9", user_id := "u9", category := .GREEN_COMMUNITY,
    status := .VERIFIED, ai_score := 92, points := 80 }

/-- Concrete store for the C9 witness: one already-VERIFIED action. -/
def dbC9 : DB := { users := [], actions := [act9] }

/-- Concrete store for the C10 witness: an inactive participant. -/
def dbC10 : DB :=
  { users := [{ id := "u3", role := "WARGA", is_active := false,
                total_points := 40 }],
    actions := [] }

/-- Tied participant for the C7 counterexample, created first (it
appears first in the user table). -/
def uTieA : User :=
  { id := "uA", role := "WARGA", is_active := true, total_points := 40 }

/-- Tied participant for the C7 counterexample, created second, with
the same 40-point total as `uTieA`. -/
def uTieB : User :=
  { id := "uB", role := "WARGA", is_active := true, total_points := 40 }

/-- Store with two tied eligible participants in creation order
`uTieA`, `uTieB`. -/
def dbTie : DB := { users := [uTieA, uTieB], actions := [] }

/-- Total bonus the crediting loop still has to pay when `vs` winners
remain and `i` of them have already been processed. -/
def pendingBonus : Nat → List TopUserView → Nat
  | _, [] => 0
  | i, _ :: rest => DAILY_BONUS_POINTS (i + 1) + pendingBonus (i + 1) rest

/-- Total rank bonus paid to `k` winners: 15, 15+10, 15+10+5. -/
def rankBonusSum : Nat → Nat
  | 0 => 0
  | 1 => 15
  | 2 => 25
  | _ => 30

/-- Concrete store for the C1 counterexample and witness: one eligible
participant holding 10 points. -/
def dbC1 : DB :=
  { users := [{ id := "u1", email := "u1@x.io", name := "U1", role := "WARGA",
                is_active := true, total_points := 10 }],
    actions := [] }

/-- Parsed object for the C8 witness: an out-of-range score 150. -/
def pjC8 : ParsedJson :=
  { score := some 150, labels := none, categoryMatch := none,
    feedback := none }

/-- Parser stub for the C8 witness: accepts exactly the body `42`. -/
def jpC8 : String → Option ParsedJson := fun s =>
  if s = "42" then some pjC8 else none

/-! ### Helper lemmas -/

/-- For every natural `b`, the exact floor of `b × 0.6` agrees with the
natural division `b * 6 / 10` used in the embedding of
`Math.floor(basePoints * 0.6)`. -/
theorem floorMul06 (b : Nat) : Nat.floor ((b : ℚ) * 0.6) = b * 6 / 10 := by
  have h1 : (b : ℚ) * 0.6 = ((3 * b : ℕ) : ℚ) / ((5 : ℕ) : ℚ) := by
    push_cast
    ring
  rw [h1, Nat.floor_div_nat, Nat.floor_natCast]
  omega

/-- Every rule-table entry (and the default) has a positive minimum
score threshold. -/
theorem minScore_pos (category : GreenActionCategory) (subCategory : String) :
    0 < ((POINTS_CRITERIA category subCategory).getD ⟨30, 60⟩).minScore := by
  cases category <;> simp only [POINTS_CRITERIA] <;> split_ifs <;> decide

/-- The decision ladder at score `0` rejects with zero points for every
category and sub-category. -/
theorem calculatePointsAndStatus_zero (category : GreenActionCategory)
    (subCategory : String) :
    calculatePointsAndStatus 0 category subCategory = (0, .REJECTED) := by
  have hm := minScore_pos category subCategory
  unfold calculatePointsAndStatus
  have h1 : ¬ (80 : Int) ≤ 0 := by norm_num
  have h2 : ¬ ((POINTS_CRITERIA category subCategory).getD ⟨30, 60⟩).minScore ≤ 0 := by
    omega
  have h3 : ¬ (40 : Int) ≤ 0 := by norm_num
  simp [h1, h2, h3]

/-- A failed verification (any of the three failure paths) carries
score `0`. -/
theorem verifyWithAi_failure_score (jsonParse : String → Option ParsedJson)
    (oracle : OracleOutcome) (h : (verifyWithAi jsonParse oracle).success = false) :
    (verifyWithAi jsonParse oracle).score = 0 := by
  cases oracle with
  | errorResult e => rfl
  | thrown => rfl
  | ok text =>
    simp only [verifyWithAi, parseAiResponse] at h ⊢
    rcases hj : jsonParse (effectiveJsonStr text) with _ | parsed
    · rfl
    · rw [hj] at h
      simp at h

/-- Incrementing preserves the row id. -/
theorem incrementRow_id (userId : String) (points : Int) (u : User) :
    (incrementRow userId points u).id = u.id := by
  unfold incrementRow
  split <;> rfl

/-- Incrementing a row absent from a list leaves the list unchanged. -/
theorem map_incrementRow_of_not_mem (l : List User) (userId : String)
    (points : Int) (h : ∀ u ∈ l, u.id ≠ userId) :
    l.map (incrementRow userId points) = l := by
  have hcong : ∀ u ∈ l, incrementRow userId points u = id u := by
    intro u hu
    unfold incrementRow
    rw [if_neg (h u hu)]
    rfl
  rw [List.map_congr_left hcong, List.map_id]

/-- The id column is untouched by `updateUserPoints`. -/
theorem updateUserPoints_map_id (userId : String) (points : Int) (db : DB) :
    (updateUserPoints userId points db).users.map User.id =
      db.users.map User.id := by
  unfold updateUserPoints
  rw [List.map_map]
  exact List.map_congr_left fun u _ => incrementRow_id userId points u

/-- Looking a user up by id commutes with `incrementRow` over the
whole table. -/
theorem find?_map_incrementRow (l : List User) (userId v : String)
    (points : Int) :
    (l.map (incrementRow userId points)).find? (fun u => u.id == v) =
      (l.find? (fun u => u.id == v)).map (incrementRow userId points) := by
  rw [List.find?_map]
  have hc : ((fun u : User => u.id == v) ∘ incrementRow userId points) =
      (fun u : User => u.id == v) := by
    funext u
    simp [Function.comp, incrementRow_id]
  rw [hc]

/-- The updated user's total after `updateUserPoints` grows by exactly
the increment, provided the user exists. -/
theorem getTotal_updateUserPoints_self (db : DB) (userId : String)
    (points : Int) (h : (db.users.find? (fun u => u.id == userId)).isSome) :
    getTotal (updateUserPoints userId points db) userId =
      getTotal db userId + points := by
  unfold getTotal updateUserPoints
  rw [find?_map_incrementRow]
  obtain ⟨u0, hu0⟩ := Option.isSome_iff_exists.mp h
  rw [hu0]
  have hid : u0.id = userId := by simpa using List.find?_some hu0
  simp [incrementRow, hid]

/-- Any other user's total is untouched by `updateUserPoints`. -/
theorem getTotal_updateUserPoints_other (db : DB) (userId v : String)
    (points : Int) (hv : v ≠ userId) :
    getTotal (updateUserPoints userId points db) v = getTotal db v := by
  unfold getTotal updateUserPoints
  rw [find?_map_incrementRow]
  cases hf : db.users.find? (fun u => u.id == v) with
  | none => rfl
  | some u0 =>
    have hid : u0.id = v := by simpa using List.find?_some hf
    simp [incrementRow, hid, hv]

/-- Totals are read from the user table only; the action table is
irrelevant to `getTotal`. -/
theorem getTotal_set_actions (db : DB) (acts : List GreenAction)
    (v : String) : getTotal { db with actions := acts } v = getTotal db v :=
  rfl

/-- Summed totals after one row increment on a duplicate-free table
grow by exactly the increment. -/
theorem sum_map_incrementRow (l : List User) (userId : String) (points : Int)
    (hmem : userId ∈ l.map User.id) (hnd : (l.map User.id).Nodup) :
    ((l.map (incrementRow userId points)).map User.total_points).sum =
      (l.map User.total_points).sum + points := by
  induction l with
  | nil => simp at hmem
  | cons u t ih =>
    simp only [List.map_cons, List.nodup_cons] at hnd
    by_cases hu : u.id = userId
    · have ht : ∀ w ∈ t, w.id ≠ userId := by
        intro w hw hwid
        exact hnd.1 (hu ▸ hwid ▸ List.mem_map_of_mem User.id hw)
      rw [List.map_cons, map_incrementRow_of_not_mem t userId points ht]
      simp only [List.map_cons, List.sum_cons, incrementRow, if_pos hu]
      ring
    · have hmem' : userId ∈ t.map User.id := by
        rcases List.mem_cons.mp hmem with h | h
        · exact absurd h.symm hu
        · exact h
      simp only [List.map_cons, List.sum_cons, incrementRow, if_neg hu]
      rw [ih hmem' hnd.2]
      ring

/-- Version for `sumTotals` of `sum_map_incrementRow`. -/
theorem sumTotals_updateUserPoints (db : DB) (userId : String) (points : Int)
    (hmem : userId ∈ db.users.map User.id)
    (hnd : (db.users.map User.id).Nodup) :
    sumTotals (updateUserPoints userId points db) = sumTotals db + points :=
  sum_map_incrementRow db.users userId points hmem hnd

/-! ### Claim theorems -/

/-- Claim C3: for every AI score in `[0, 100]` and every
category/sub-category pair, `calculatePointsAndStatus` follows the
specification's decision ladder top-down — `score ≥ 80` full credit
VERIFIED, `score ≥ minScoreThreshold` partial credit
`floor(basePoints × 0.6)` VERIFIED, `score ≥ 40` zero points
NEEDS_IMPROVEMENT, otherwise zero points REJECTED — with the default
entry `basePoints 30, minScoreThreshold 60` for unrecognized
sub-categories, so the function is total on all inputs. -/
theorem calculatePointsAndStatus_matches_decisionLadder (score : Int)
    (category : GreenActionCategory) (subCategory : String)
    (h0 : 0 ≤ score) (h100 : score ≤ 100) :
    calculatePointsAndStatus score category subCategory =
      decisionLadderSpec score category subCategory := by
  simp only [calculatePointsAndStatus, decisionLadderSpec]
  have hmatch : ∀ o : Option Criteria,
      (match o with | some c => c | none => (⟨30, 60⟩ : Criteria)) =
        o.getD ⟨30, 60⟩ := by
    intro o
    cases o <;> rfl
  rw [hmatch]
  generalize (POINTS_CRITERIA category subCategory).getD ⟨30, 60⟩ = c
  rw [floorMul06]

/-- Witness for C3 at score 65, category GREEN_WASTE, sub-category
ORGANIC_WASTE. -/
theorem calculatePointsAndStatus_matches_decisionLadder_witness :
    calculatePointsAndStatus 65 .GREEN_WASTE "ORGANIC_WASTE" =
      decisionLadderSpec 65 .GREEN_WASTE "ORGANIC_WASTE" :=
  calculatePointsAndStatus_matches_decisionLadder 65 .GREEN_WASTE
    "ORGANIC_WASTE" (by norm_num) (by norm_num)

/-- Claim C2 (what the code actually does): when the oracle adapter
fails — unavailable, thrown, or unparsable response, all of which make
`verifyWithAi` return the default result with `success = false` and
score `0` — `submitAction` persists the action with 0 points but
status `REJECTED`, not `NEEDS_IMPROVEMENT`: the status carried by
`getDefaultAiResult` is discarded and the ladder re-scores the zero. -/
theorem submitAction_oracleFailure_rejected (newId userId : String)
    (category : GreenActionCategory) (subCategory description mediaUrl : String)
    (jsonParse : String → Option ParsedJson) (oracle : OracleOutcome) (db : DB)
    (hfail : (verifyWithAi jsonParse oracle).success = false) :
    (submitAction newId userId category subCategory description mediaUrl
        jsonParse oracle db).1.points = 0 ∧
    (submitAction newId userId category subCategory description mediaUrl
        jsonParse oracle db).1.status = .REJECTED ∧
    (submitAction newId userId category subCategory description mediaUrl
        jsonParse oracle db).1.status ≠ .NEEDS_IMPROVEMENT := by
  have hs := verifyWithAi_failure_score jsonParse oracle hfail
  have hz := calculatePointsAndStatus_zero category subCategory
  simp [submitAction, hs, hz]

/-- Witness for C2: a thrown oracle call on an empty store persists a
REJECTED action with zero points. -/
theorem submitAction_oracleFailure_rejected_witness :
    (submitAction "a1" "u1" .GREEN_WASTE "ORGANIC_WASTE" "" "url"
        (fun _ => none) .thrown ⟨[], []⟩).1.points = 0 ∧
    (submitAction "a1" "u1" .GREEN_WASTE "ORGANIC_WASTE" "" "url"
        (fun _ => none) .thrown ⟨[], []⟩).1.status = .REJECTED ∧
    (submitAction "a1" "u1" .GREEN_WASTE "ORGANIC_WASTE" "" "url"
        (fun _ => none) .thrown ⟨[], []⟩).1.status ≠ .NEEDS_IMPROVEMENT :=
  submitAction_oracleFailure_rejected "a1" "u1" .GREEN_WASTE "ORGANIC_WASTE"
    "" "url" (fun _ => none) .thrown ⟨[], []⟩ (by decide)

/-- Claim C4: a submission resolving to VERIFIED with points `P`
increases the submitting user's aggregate total by exactly `P`; a
submission resolving to any other status leaves the whole user table —
hence every aggregate total — unchanged; and no side effect of the
submission changes any other user's total. -/
theorem submitAction_total_change (newId userId : String)
    (category : GreenActionCategory) (subCategory description mediaUrl : String)
    (jsonParse : String → Option ParsedJson) (oracle : OracleOutcome) (db : DB)
    (hx : (db.users.find? (fun u => u.id == userId)).isSome) :
    ((submitAction newId userId category subCategory description mediaUrl
        jsonParse oracle db).1.status = .VERIFIED →
      getTotal (submitAction newId userId category subCategory description
          mediaUrl jsonParse oracle db).2 userId =
        getTotal db userId +
          (submitAction newId userId category subCategory description mediaUrl
            jsonParse oracle db).1.points) ∧
    ((submitAction newId userId category subCategory description mediaUrl
        jsonParse oracle db).1.status ≠ .VERIFIED →
      (submitAction newId userId category subCategory description mediaUrl
        jsonParse oracle db).2.users = db.users) ∧
    (∀ v, v ≠ userId →
      getTotal (submitAction newId userId category subCategory description
          mediaUrl jsonParse oracle db).2 v = getTotal db v) := by
  simp only [submitAction]
  set ps := calculatePointsAndStatus (verifyWithAi jsonParse oracle).score
    category subCategory with hps
  by_cases hv : ps.2 = GreenActionStatus.VERIFIED
  · rw [if_pos hv]
    refine ⟨fun _ => ?_, fun hne => absurd hv hne, fun v hvne => ?_⟩
    · exact getTotal_updateUserPoints_self _ userId ps.1 hx
    · exact getTotal_updateUserPoints_other _ userId v ps.1 hvne
  · rw [if_neg hv]
    exact ⟨fun hc => absurd hc hv, fun _ => rfl, fun v _ => rfl⟩

/-- Witness for C4: a score-85 GREEN_WASTE/ORGANIC_WASTE submission is
VERIFIED with 50 points and raises the user's total from 0 by exactly
50. -/
theorem submitAction_total_change_witness :
    ((submitAction "a1" "u1" .GREEN_WASTE "ORGANIC_WASTE" "" "url" jpC4
        (.ok "ok") dbC4).1.status = .VERIFIED →
      getTotal (submitAction "a1" "u1" .GREEN_WASTE "ORGANIC_WASTE" "" "url"
          jpC4 (.ok "ok") dbC4).2 "u1" =
        getTotal dbC4 "u1" +
          (submitAction "a1" "u1" .GREEN_WASTE "ORGANIC_WASTE" "" "url" jpC4
            (.ok "ok") dbC4).1.points) ∧
    ((submitAction "a1" "u1" .GREEN_WASTE "ORGANIC_WASTE" "" "url" jpC4
        (.ok "ok") dbC4).1.status ≠ .VERIFIED →
      (submitAction "a1" "u1" .GREEN_WASTE "ORGANIC_WASTE" "" "url" jpC4
        (.ok "ok") dbC4).2.users = dbC4.users) ∧
    (∀ v, v ≠ "u1" →
      getTotal (submitAction "a1" "u1" .GREEN_WASTE "ORGANIC_WASTE" "" "url"
          jpC4 (.ok "ok") dbC4).2 v = getTotal dbC4 v) :=
  submitAction_total_change "a1" "u1" .GREEN_WASTE "ORGANIC_WASTE" "" "url"
    jpC4 (.ok "ok") dbC4 (by decide)

/-- Claim C5 (what the code actually does): when an admin deletes
another user's VERIFIED 50-point action, the deduction
`updateUserPoints(userId, -points)` is keyed by the *requester's* id,
so the owner keeps their 50 points and the admin's total drops to
−50. -/
theorem deleteAction_decrements_requester_not_owner :
    (deleteAction "a1" "admin1" true dbC5).map
        (fun d => (getTotal d "u1", getTotal d "admin1")) =
      Except.ok ((50 : Int), (-50 : Int)) := by
  decide

/-- Counterexample to C6: no clamping exists — the delete drives the
requester's aggregate total to −20, strictly below zero. -/
theorem deleteAction_no_clamp_counterexample :
    (deleteAction "a2" "admin9" true dbC6).map (fun d => getTotal d "admin9") =
      Except.ok ((-20 : Int)) ∧ ((-20 : Int) < 0) := by
  exact ⟨by decide, by decide⟩

/-- Claim C6 as amended: the deduction on deleting a VERIFIED
positive-point action is an unconditional increment by `-P` on the
requester's row — the new balance is exactly the old balance minus `P`,
with no clamping at zero, so it can go negative. -/
theorem deleteAction_decrement_unclamped (db : DB) (id userId : String)
    (isAdmin : Bool) (action : GreenAction)
    (hfind : findById id db = some action)
    (hauth : isAdmin = true ∨ action.user_id = userId)
    (hver : action.status = .VERIFIED) (hpos : 0 < action.points)
    (hex : (db.users.find? (fun u => u.id == userId)).isSome) :
    ∃ db', deleteAction id userId isAdmin db = .ok db' ∧
      getTotal db' userId = getTotal db userId - action.points := by
  have hcond : ¬ (¬ isAdmin = true ∧ action.user_id ≠ userId) := by
    rcases hauth with h | h <;> simp [h]
  simp only [deleteAction, hfind]
  rw [if_neg hcond, if_pos ⟨hver, hpos⟩]
  refine ⟨_, rfl, ?_⟩
  rw [getTotal_set_actions]
  rw [getTotal_updateUserPoints_self db userId (-(action.points : Int)) hex]
  ring

/-- Witness for the amended C6 at the concrete store `dbC6`. -/
theorem deleteAction_decrement_unclamped_witness :
    ∃ db', deleteAction "a2" "admin9" true dbC6 = .ok db' ∧
      getTotal db' "admin9" =
        getTotal dbC6 "admin9" -
          (({ id := "a2", user_id := "u2", category := .GREEN_HOME,
              status := .VERIFIED, ai_score := 90,
              points := 30 } : GreenAction)).points :=
  deleteAction_decrement_unclamped dbC6 "a2" "admin9" true
    { id := "a2", user_id := "u2", category := .GREEN_HOME,
      status := .VERIFIED, ai_score := 90, points := 30 }
    (by decide) (Or.inl rfl) (by decide) (by decide) (by decide)

/-- Claim C9: `retryVerification` leaves the store untouched in every
case; it returns `NotFound` exactly when the requester owns no action
with the id; and when the requester's action is found, the invalid-state
failure occurs if and only if the action is already VERIFIED — in the
non-VERIFIED case the action itself is returned unchanged. -/
theorem retryVerification_spec (db : DB) (id userId : String) :
    (retryVerification id userId db).2 = db ∧
    (findByIdAndUserId id userId db = none →
      (retryVerification id userId db).1 = .error .NotFound) ∧
    (∀ action, findByIdAndUserId id userId db = some action →
      (((retryVerification id userId db).1 = .error .InvalidState) ↔
        action.status = .VERIFIED) ∧
      (action.status ≠ .VERIFIED →
        (retryVerification id userId db).1 = .ok action)) := by
  rcases hf : findByIdAndUserId id userId db with _ | action
  · refine ⟨?_, fun _ => ?_, fun a ha => ?_⟩
    · simp [retryVerification, hf]
    · simp [retryVerification, hf]
    · exact absurd ha (by simp)
  · have hres : retryVerification id userId db =
        (if action.status = GreenActionStatus.VERIFIED then
          (.error .InvalidState, db) else (.ok action, db)) := by
      simp [retryVerification, hf]
    refine ⟨?_, fun hn => absurd hn (by simp), fun a ha => ?_⟩
    · rw [hres]
      split <;> rfl
    · have haa : a = action := (Option.some.inj ha).symm
      subst haa
      by_cases hv : a.status = GreenActionStatus.VERIFIED
      · rw [hres, if_pos hv]
        exact ⟨Iff.intro (fun _ => hv) (fun _ => rfl), fun hc => absurd hv hc⟩
      · rw [hres, if_neg hv]
        refine ⟨Iff.intro (fun hc => ?_) (fun hc => absurd hc hv),
          fun _ => rfl⟩
        exact absurd hc (by simp)

/-- Witness for C9: retrying the VERIFIED action `a9` fails with the
invalid-state error and leaves the store unchanged. -/
theorem retryVerification_spec_witness :
    (retryVerification "a9" "u9" dbC9).1 = .error .InvalidState ∧
    (retryVerification "a9" "u9" dbC9).2 = dbC9 := by
  have h := retryVerification_spec dbC9 "a9" "u9"
  exact ⟨((h.2.2 act9 (by decide)).1).mpr (by decide), h.1⟩

/-- Claim C10: a user id with no eligible row (no positive total,
inactive, or non-participant role) is absent from the ranked list, and
`getUserRank` answers rank 0, totalPoints 0, totalActions 0 and
percentile 0 instead of failing. -/
theorem getUserRank_absent_all_zero (db : DB) (userId : String)
    (h : ∀ u ∈ db.users, eligibleB u = true → u.id ≠ userId) :
    getUserRank userId db =
      { rank := 0, totalPoints := 0, totalActions := 0, percentile := 0 } := by
  have hidx : (rankUsers db).findIdx? (fun u => u.id == userId) = none := by
    rw [List.findIdx?_eq_none_iff]
    intro u hu
    have hmem : u ∈ db.users.filter eligibleB :=
      ((List.perm_insertionSort pointsGE _).mem_iff).mp hu
    obtain ⟨hu1, hu2⟩ := List.mem_filter.mp hmem
    simpa using h u hu1 hu2
  simp [getUserRank, hidx]

/-- Witness for C10 at the inactive user `u3`. -/
theorem getUserRank_absent_all_zero_witness :
    getUserRank "u3" dbC10 =
      { rank := 0, totalPoints := 0, totalActions := 0, percentile := 0 } :=
  getUserRank_absent_all_zero dbC10 "u3" (by decide)

/-- Mapping a projection of the element over an enumerated list drops
the indices. -/
theorem enum_map_snd_comp {α β : Type} (l : List α) (g : α → β) :
    l.enum.map (fun p => g p.2) = l.map g := by
  conv_rhs => rw [← List.enum_map_snd l]
  rw [List.map_map]
  rfl

/-- Two-step mapping over an enumerated list whose composite ignores
the index reduces to a plain map. -/
theorem enum_map_comp_snd {α β γ : Type} (l : List α) (f : Nat × α → β)
    (g : β → γ) (g0 : α → γ) (h : ∀ p : Nat × α, g (f p) = g0 p.2) :
    (l.enum.map f).map g = l.map g0 := by
  have h1 : l.enum.map (g ∘ f) = l.enum.map (fun p => g0 p.2) :=
    List.map_congr_left (fun p _ => h p)
  rw [List.map_map, h1, enum_map_snd_comp]

/-- Counterexample to C7: the query contract `isFindManyResult` —
the whole of what the source's `where` filter and
`orderBy total_points desc` specify — does not determine the order of
tied users.  On the store `dbTie` (participant `uTieA` created before
`uTieB`, both holding 40 points) both `[uTieA, uTieB]` and
`[uTieB, uTieA]` are admissible fetch results, and in the second the
first-created user does not win the tie; since the top-N and the paged
query each perform their own fetch, they may also disagree on tied
users.  So the claimed first-created-wins tie-break and the guaranteed
shared ordering are not properties of the program. -/
theorem leaderboard_tie_order_not_guaranteed :
    isFindManyResult dbTie [uTieA, uTieB] ∧
    isFindManyResult dbTie [uTieB, uTieA] ∧
    dbTie.users = [uTieA, uTieB] ∧
    uTieB ≠ uTieA ∧
    [uTieB, uTieA].head? = some uTieB := by
  refine ⟨⟨by decide, by decide⟩, ⟨by decide, by decide⟩, rfl, by decide,
    rfl⟩

/-- Claim C7 as amended: each leaderboard query exposes a slice of a
fetch satisfying the query contract — exactly the eligible users (role
WARGA, active, positive aggregate total) in an order non-increasing in
aggregate total — and the total the paged query reports counts exactly
the eligible users.  The order among users with equal totals, and
hence agreement between the two independently-fetched queries on tied
users, is left unspecified by the program (it supplies no secondary
sort key); the queries are pure reads of the store by construction. -/
theorem leaderboard_ranking_amended (db : DB) (n page limit : Nat) :
    (∃ l, isFindManyResult db l ∧
      (getTopUsers n db).map (fun v => (v.id, v.totalPoints)) =
        (l.take n).map (fun u => (u.id, u.total_points))) ∧
    (∃ l, isFindManyResult db l ∧
      ((getLeaderboard page limit db).1).map
          (fun e => (e.userId, e.totalPoints)) =
        ((l.drop ((page - 1) * limit)).take limit).map
          (fun u => (u.id, u.total_points)) ∧
      (getLeaderboard page limit db).2 = l.length) ∧
    (getLeaderboard page limit db).2 = (db.users.filter eligibleB).length := by
  have hcontract : isFindManyResult db (rankUsers db) :=
    ⟨List.perm_insertionSort pointsGE _, List.sorted_insertionSort pointsGE _⟩
  refine ⟨⟨rankUsers db, hcontract, ?_⟩,
    ⟨rankUsers db, hcontract, ?_, ?_⟩, ?_⟩
  · simp only [getTopUsers]
    rw [List.map_map]
    rfl
  · simp only [getLeaderboard]
    exact enum_map_comp_snd _ _ _ _ (fun p => rfl)
  · simp only [getLeaderboard]
  · simp only [getLeaderboard]
    exact ((List.perm_insertionSort pointsGE _).length_eq)

/-- For at most three winners the pending bonus from rank 1 is the
rank-bonus sum of the winner count. -/
theorem pendingBonus_zero_eq (vs : List TopUserView) (h : vs.length ≤ 3) :
    pendingBonus 0 vs = rankBonusSum vs.length := by
  rcases vs with _ | ⟨a, _ | ⟨b, _ | ⟨c, _ | ⟨d, t⟩⟩⟩⟩
  · rfl
  · rfl
  · rfl
  · rfl
  · simp only [List.length_cons] at h
    omega

/-- The rank-bonus sum of at least one winner is positive. -/
theorem rankBonusSum_pos (k : Nat) (hk : k ≠ 0) : 0 < rankBonusSum k := by
  rcases k with _ | _ | _ | k3
  · exact absurd rfl hk
  · decide
  · decide
  · show 0 < 30
    decide

/-- Every id in the top list is an id of the user table. -/
theorem getTopUsers_id_mem (n : Nat) (db : DB) (v : TopUserView)
    (hv : v ∈ getTopUsers n db) : v.id ∈ db.users.map User.id := by
  unfold getTopUsers at hv
  rcases List.mem_map.mp hv with ⟨u, hu, rfl⟩
  have hu2 : u ∈ rankUsers db := List.mem_of_mem_take hu
  have hu3 : u ∈ db.users.filter eligibleB :=
    (List.perm_insertionSort pointsGE _).mem_iff.mp hu2
  exact List.mem_map_of_mem User.id (List.mem_filter.mp hu3).1

/-- The top list never exceeds the requested size. -/
theorem getTopUsers_length_le (n : Nat) (db : DB) :
    (getTopUsers n db).length ≤ n := by
  unfold getTopUsers
  rw [List.length_map]
  exact List.length_take_le _ _

/-- The crediting loop adds exactly the pending bonus to the summed
totals, provided ids are unique and every winner exists. -/
theorem creditWinners_sumTotals (vs : List TopUserView) :
    ∀ (i : Nat) (db : DB), (db.users.map User.id).Nodup →
      (∀ v ∈ vs, v.id ∈ db.users.map User.id) →
      sumTotals (creditWinners i vs db).2.2 =
        sumTotals db + pendingBonus i vs := by
  induction vs with
  | nil =>
    intro i db _ _
    simp [creditWinners, pendingBonus]
  | cons v t ih =>
    intro i db hnd hmem
    have hmemv : v.id ∈ db.users.map User.id := hmem v (List.mem_cons_self v t)
    have hids : (addBonusPoints v.id (DAILY_BONUS_POINTS (i + 1)) db).users.map
        User.id = db.users.map User.id :=
      updateUserPoints_map_id v.id (DAILY_BONUS_POINTS (i + 1)) db
    have hnd1 : ((addBonusPoints v.id (DAILY_BONUS_POINTS (i + 1)) db).users.map
        User.id).Nodup := by
      rw [hids]
      exact hnd
    have hmem1 : ∀ w ∈ t, w.id ∈ (addBonusPoints v.id
        (DAILY_BONUS_POINTS (i + 1)) db).users.map User.id := by
      intro w hw
      rw [hids]
      exact hmem w (List.mem_cons_of_mem v hw)
    have hstep : sumTotals (addBonusPoints v.id (DAILY_BONUS_POINTS (i + 1)) db)
        = sumTotals db + DAILY_BONUS_POINTS (i + 1) :=
      sumTotals_updateUserPoints db v.id (DAILY_BONUS_POINTS (i + 1)) hmemv hnd
    simp only [creditWinners]
    rw [ih (i + 1) _ hnd1 hmem1, hstep]
    simp only [pendingBonus]
    push_cast
    ring

/-- Counterexample to C1: two immediate invocations of the
distribution operation on `dbC1` (same period string) return different
records and the winner's aggregate total moves from 25 to 40 — the
bonus is credited twice, because no distribution record is consulted or
written. -/
theorem distributeDailyReward_not_idempotent :
    (distributeDailyReward "2026-01-01"
        (distributeDailyReward "2026-01-01" dbC1).2).1 ≠
      (distributeDailyReward "2026-01-01" dbC1).1 ∧
    getTotal (distributeDailyReward "2026-01-01" dbC1).2 "u1" = 25 ∧
    getTotal (distributeDailyReward "2026-01-01"
        (distributeDailyReward "2026-01-01" dbC1).2).2 "u1" = 40 := by
  refine ⟨by decide, by decide, by decide⟩

/-- Claim C1 as amended: `distributeDailyReward` has no idempotency
guard — every invocation that finds at least one eligible user credits
the rank bonuses again, raising the summed totals by the rank-bonus sum
of the winner count; hence a second immediate invocation for the same
period pays the bonuses a second time instead of short-circuiting. -/
theorem distributeDailyReward_credits_every_invocation (db : DB)
    (today : String) (hnd : (db.users.map User.id).Nodup)
    (hne : getTopUsers TOP_USERS_COUNT db ≠ []) :
    sumTotals (distributeDailyReward today db).2 =
      sumTotals db + rankBonusSum (getTopUsers TOP_USERS_COUNT db).length ∧
    sumTotals db < sumTotals (distributeDailyReward today db).2 := by
  have hempty : (getTopUsers TOP_USERS_COUNT db).isEmpty = false := by
    cases h : getTopUsers TOP_USERS_COUNT db with
    | nil => exact absurd h hne
    | cons a t => rfl
  have hsum : sumTotals (creditWinners 0 (getTopUsers TOP_USERS_COUNT db)
        db).2.2 =
      sumTotals db + pendingBonus 0 (getTopUsers TOP_USERS_COUNT db) :=
    creditWinners_sumTotals _ 0 db hnd
      (fun v hv => getTopUsers_id_mem _ db v hv)
  have hbr : pendingBonus 0 (getTopUsers TOP_USERS_COUNT db) =
      rankBonusSum (getTopUsers TOP_USERS_COUNT db).length :=
    pendingBonus_zero_eq _ (getTopUsers_length_le TOP_USERS_COUNT db)
  have hmain : sumTotals (distributeDailyReward today db).2 =
      sumTotals db + rankBonusSum (getTopUsers TOP_USERS_COUNT db).length := by
    simp only [distributeDailyReward]
    rw [if_neg (by simp [hempty])]
    rw [hsum, hbr]
  refine ⟨hmain, ?_⟩
  have hlen : (getTopUsers TOP_USERS_COUNT db).length ≠ 0 := by
    intro h0
    exact hne (List.length_eq_zero.mp h0)
  have hpos := rankBonusSum_pos _ hlen
  omega

/-- Witness for the amended C1 at the concrete store `dbC1`. -/
theorem distributeDailyReward_credits_every_invocation_witness :
    sumTotals (distributeDailyReward "2026-01-01" dbC1).2 =
      sumTotals dbC1 +
        rankBonusSum (getTopUsers TOP_USERS_COUNT dbC1).length ∧
    sumTotals dbC1 < sumTotals (distributeDailyReward "2026-01-01" dbC1).2 :=
  distributeDailyReward_credits_every_invocation dbC1 "2026-01-01"
    (by decide) (by decide)

/-- A fence-free prefix is skipped by the fence search. -/
theorem splitAtFence_append (pre rest : List Char) (hpre : backtick ∉ pre) :
    splitAtFence (pre ++ backtick :: backtick :: backtick :: rest) =
      some (pre, rest) := by
  induction pre with
  | nil =>
    show splitAtFence (backtick :: backtick :: backtick :: rest) = _
    unfold splitAtFence
    rw [if_pos ⟨rfl, rfl⟩]
    rfl
  | cons c cs ih =>
    have hc : ¬ (c = backtick ∧
        (cs ++ backtick :: backtick :: backtick :: rest).take 2 =
          [backtick, backtick]) := by
      rintro ⟨h1, -⟩
      subst h1
      exact hpre (List.mem_cons_self _ _)
    have hcs : backtick ∉ cs := fun h => hpre (List.mem_cons_of_mem c h)
    rw [List.cons_append]
    unfold splitAtFence
    rw [if_neg hc, ih hcs]

/-- Dropping while a predicate holds skips any prefix on which it
holds everywhere. -/
theorem dropWhile_append_all {p : Char → Bool} (mid rest : List Char)
    (h : ∀ c ∈ mid, p c = true) :
    (mid ++ rest).dropWhile p = rest.dropWhile p := by
  induction mid with
  | nil => rfl
  | cons c cs ih =>
    rw [List.cons_append, List.dropWhile_cons,
      if_pos (h c (List.mem_cons_self c cs))]
    exact ih fun d hd => h d (List.mem_cons_of_mem c hd)

/-- A captured body followed by its closing fence survives the
whitespace skip: its first character is either a non-whitespace body
character or the fence backtick. -/
theorem dropWhile_fencedBody (body post : List Char)
    (hhead : ∀ c, body.head? = some c → isJsWhitespace c = false) :
    (body ++ backtick :: backtick :: backtick :: post).dropWhile
        isJsWhitespace =
      body ++ backtick :: backtick :: backtick :: post := by
  cases body with
  | nil =>
    rw [List.nil_append, List.dropWhile_cons, if_neg (by decide)]
  | cons c t =>
    rw [List.cons_append, List.dropWhile_cons, if_neg (by simp [hhead c rfl])]

/-- Claim C8: `parseAiResponse` is total over the oracle text.  On a
successful parse the returned result is the success record whose score
is the parsed score clamped to `[0, 100]`; a parse failure yields the
conservative default result (`Failure`) instead of an exception; and a
Markdown-fenced payload is extracted — the string handed to the parser
is the trimmed body between the fences, not the raw response. -/
theorem parseAiResponse_spec (jsonParse : String → Option ParsedJson)
    (txt : String) :
    (∀ parsed, jsonParse (effectiveJsonStr txt) = some parsed →
      (parseAiResponse jsonParse txt).success = true ∧
      (parseAiResponse jsonParse txt).score =
        min 100 (max 0 (jsNumOrZero parsed.score)) ∧
      0 ≤ (parseAiResponse jsonParse txt).score ∧
      (parseAiResponse jsonParse txt).score ≤ 100) ∧
    (jsonParse (effectiveJsonStr txt) = none →
      parseAiResponse jsonParse txt = getDefaultAiResult
        "Could not parse verification result. Please try again.") ∧
    (∀ pre mid body post : List Char, backtick ∉ pre →
      (∀ c ∈ mid, isJsWhitespace c = true) → backtick ∉ body →
      (∀ c, body.head? = some c → isJsWhitespace c = false) →
      txt = String.mk (pre ++ backtick :: backtick :: backtick ::
        ('j' :: 's' :: 'o' :: 'n' :: (mid ++ (body ++ (backtick ::
          backtick :: backtick :: post))))) →
      effectiveJsonStr txt = String.mk (jsTrim body)) := by
  refine ⟨fun parsed hp => ?_, fun hn => ?_,
    fun pre mid body post h1 h2 h3 h4 h5 => ?_⟩
  · unfold parseAiResponse
    rw [hp]
    refine ⟨rfl, rfl, ?_, ?_⟩
    · exact le_min (by norm_num) (le_max_left 0 _)
    · exact min_le_left _ _
  · unfold parseAiResponse
    rw [hn]
  · have hext : extractFencedJson (String.mk (pre ++ backtick :: backtick ::
        backtick :: ('j' :: 's' :: 'o' :: 'n' :: (mid ++ (body ++ (backtick ::
          backtick :: backtick :: post)))))) = some (String.mk body) := by
      unfold extractFencedJson
      rw [show (String.mk (pre ++ backtick :: backtick :: backtick ::
          ('j' :: 's' :: 'o' :: 'n' :: (mid ++ (body ++ (backtick ::
            backtick :: backtick :: post)))))).data =
          pre ++ backtick :: backtick :: backtick ::
            ('j' :: 's' :: 'o' :: 'n' :: (mid ++ (body ++ (backtick ::
              backtick :: backtick :: post)))) from rfl]
      rw [splitAtFence_append pre _ h1]
      show (match splitAtFence ((mid ++ (body ++ (backtick :: backtick ::
          backtick :: post))).dropWhile isJsWhitespace) with
        | none => (none : Option String)
        | some (b, _) => some (String.mk b)) = some (String.mk body)
      rw [dropWhile_append_all mid _ h2]
      rw [dropWhile_fencedBody body post h4]
      rw [splitAtFence_append body post h3]
    rw [h5]
    unfold effectiveJsonStr
    rw [hext]

/-- Witness for C8: the fenced response is reduced to its body `42`,
the parse succeeds, and the score 150 is clamped to 100. -/
theorem parseAiResponse_spec_witness :
    (parseAiResponse jpC8 "```json 42```").success = true ∧
    (parseAiResponse jpC8 "```json 42```").score = 100 ∧
    effectiveJsonStr "```json 42```" = "42" := by
  have h := parseAiResponse_spec jpC8 "```json 42```"
  have h1 := h.1 pjC8 (by decide)
  have h3 := h.2.2 [] [' '] ['4', '2'] [] (by decide) (by decide) (by decide)
    (by decide) (by decide)
  refine ⟨h1.1, ?_, ?_⟩
  · rw [h1.2.1]
    decide
  · rw [h3]
    decide

end Sirkula
